import Mathlib

/-!
Shallow embedding of src/lib/api.ts (a Binance market-data client module).

Modelling conventions:
- JavaScript numbers that arise from parseFloat are modelled by JsNum:
  either NaN, a signed infinity, or an exact rational. The model of
  parseFloat follows the ECMAScript algorithm on the decimal literal
  (leading whitespace, optional sign, digits, optional fraction, optional
  exponent, longest valid numeric literal, NaN when none), idealized
  to exact rational arithmetic.
- fetch results are modelled as Option values: none stands for a transport
  error or a non-success response status (both are thrown and caught by the
  surrounding try/catch in the source).
- Array.prototype.sort with a comparator is modelled by stable insertion
  sort over the sign of the comparator, matching the stable-sort guarantee
  of ECMAScript 2019 and later.
- The module-level WebSocket slot is modelled as explicit state (WsState)
  together with the history of connections ever created, so that claims
  about closing the previous connection are expressible.
-/

namespace Xade

/-- A JavaScript number as produced by parseFloat: NaN, a signed infinity,
or a finite value (idealized to an exact rational). -/
inductive JsNum where
  | nan : JsNum
  | inf (pos : Bool) : JsNum
  | num (q : ℚ) : JsNum
deriving DecidableEq

/-- True exactly for finite JavaScript numbers. -/
def JsNum.isFinite : JsNum → Bool
  | .num _ => true
  | _ => false

/-- Comparison of two finite JavaScript numbers; False whenever either side
is NaN or infinite. -/
def jsNumLe : JsNum → JsNum → Prop
  | .num a, .num b => a ≤ b
  | _, _ => False

/-- Whitespace skipped by parseFloat (the common ASCII white-space forms). -/
def jsWhitespace (c : Char) : Bool :=
  c == ' ' || c == '\t' || c == '\n' || c == '\r' ||
    c == Char.ofNat 11 || c == Char.ofNat 12

/-- Value of a list of decimal digit characters, most significant first. -/
def digitsVal (l : List Char) : Nat :=
  l.foldl (fun acc c => acc * 10 + (c.toNat - 48)) 0

/-- Does the second character list start with the first one? -/
def charsLeadWith : List Char → List Char → Bool
  | [], _ => true
  | _ :: _, [] => false
  | p :: ps, c :: cs => p == c && charsLeadWith ps cs

/-- Does the second character list contain the first one as a contiguous
run? -/
def charsHaveSub (pat : List Char) : List Char → Bool
  | [] => charsLeadWith pat []
  | c :: cs => charsLeadWith pat (c :: cs) || charsHaveSub pat cs

/-- Model of String.prototype.includes from JavaScript. -/
def strIncludes (s pat : String) : Bool :=
  charsHaveSub pat.data s.data

/-- Exponent tail of a decimal literal: an optional sign followed by digits.
Returns none when no digits follow, in which case parseFloat ignores the
exponent marker (longest valid literal). -/
def jsExpTail (l : List Char) : Option Int :=
  match l with
  | '+' :: r =>
      let ds := r.takeWhile Char.isDigit
      if ds.isEmpty then none else some (digitsVal ds : Int)
  | '-' :: r =>
      let ds := r.takeWhile Char.isDigit
      if ds.isEmpty then none else some (-(digitsVal ds : Int))
  | r =>
      let ds := r.takeWhile Char.isDigit
      if ds.isEmpty then none else some (digitsVal ds : Int)

/-- Mantissa-and-exponent assembly for parseFloat, applied after the sign:
digits, optional dot and fraction digits, optional exponent part; NaN when
no digit occurs before the exponent position. The value of the literal,
sign times (ip.fp) times ten to the e, is assembled as one exact fraction
with mkRat (the irreducible rational operations would not evaluate). -/
def jsParseAfterSign (sgn : Int) (l : List Char) : JsNum :=
  let ip := l.takeWhile Char.isDigit
  let l2 := l.dropWhile Char.isDigit
  let fp := match l2 with
    | '.' :: r => r.takeWhile Char.isDigit
    | _ => []
  let l3 := match l2 with
    | '.' :: r => r.dropWhile Char.isDigit
    | _ => l2
  if ip.isEmpty && fp.isEmpty then JsNum.nan
  else
    let m : Nat := digitsVal ip * 10 ^ fp.length + digitsVal fp
    let e : Int := match l3 with
      | 'e' :: r => (jsExpTail r).getD 0
      | 'E' :: r => (jsExpTail r).getD 0
      | _ => 0
    if 0 ≤ e then
      JsNum.num (mkRat (sgn * (m : Int) * (10 ^ e.toNat : Nat)) (10 ^ fp.length))
    else
      JsNum.num (mkRat (sgn * (m : Int)) (10 ^ (fp.length + (-e).toNat)))

/-- Model of the JavaScript parseFloat builtin on a string: skip leading
whitespace, read an optional sign, then either the literal Infinity or a
decimal literal; NaN when no numeric literal starts there. -/
def jsParseFloat (s : String) : JsNum :=
  let l := s.data.dropWhile jsWhitespace
  match l with
  | '+' :: r =>
      if charsLeadWith (String.data ("Infinity")) r then JsNum.inf true
      else jsParseAfterSign 1 r
  | '-' :: r =>
      if charsLeadWith (String.data ("Infinity")) r then JsNum.inf false
      else jsParseAfterSign (-1) r
  | r =>
      if charsLeadWith (String.data ("Infinity")) r then JsNum.inf true
      else jsParseAfterSign 1 r

/-- Model of the JavaScript expression (x || y) for an optional string x
with string default y: the default is used when x is undefined or the empty
string (the only falsy strings). In the source the default is always the
one-character string 0. -/
def jsOrZero : Option String → String
  | none => "0"
  | some s => if s = "" then "0" else s

/-- Model of Array.prototype.slice with start 0 and integer end argument:
a negative end counts from the end of the array (ECMAScript clamps the
result to the array bounds). -/
def jsSlice0 {α : Type} (limit : Int) (l : List α) : List α :=
  l.take (if limit < 0 then ((l.length : Int) + limit).toNat else limit.toNat)

/-- Model of String.prototype.toLowerCase restricted to ASCII data, which
is all the source ever lowercases (exchange symbols and asset codes). -/
def jsToLowerCase (s : String) : String :=
  ⟨s.data.map Char.toLower⟩

/-- Ticker record from the 24hr endpoint (src/lib/api.ts lines 3 to 9);
all numeric fields arrive as strings. -/
structure BinanceTicker where
  symbol : String
  lastPrice : String
  quoteVolume : String
  priceChangePercent : String
  volume : String
deriving DecidableEq

/-- Instrument record from the exchangeInfo endpoint (src/lib/api.ts lines
11 to 16). -/
structure BinancePair where
  symbol : String
  baseAsset : String
  quoteAsset : String
  status : String
deriving DecidableEq

/-- Output record shape produced by fetchTopTokens (src/lib/api.ts lines
89 to 101). -/
structure Token where
  id : String
  symbol : String
  name : String
  image : String
  current_price : JsNum
  market_cap : JsNum
  market_cap_rank : Nat
  price_change_percentage_24h : JsNum
  volume_24h : JsNum
  quoteAsset : String
  baseAsset : String
deriving DecidableEq

/-- The curated major-asset list (src/lib/api.ts lines 24 to 30). -/
def MAJOR_TOKENS : List String :=
  ["BTC", "ETH", "BNB", "XRP", "ADA", "DOGE", "MATIC", "SOL", "DOT", "LTC",
   "AVAX", "LINK", "UNI", "ATOM", "ETC", "XLM", "BCH", "FIL", "ALGO", "ICP",
   "VET", "MANA", "SAND", "AXS", "THETA", "XTZ", "EOS", "AAVE", "CAKE", "MKR",
   "SNX", "COMP", "YFI", "SUSHI", "1INCH", "ENJ", "BAT", "ZIL", "IOTA", "NEO",
   "WAVES", "DASH", "ZEC", "XMR", "QTUM", "ONT", "IOST", "OMG", "ZRX", "KNC"]

/-- Lookup in the Map built from the ticker array (src/lib/api.ts line 59):
with duplicate symbols the last entry wins, so the lookup finds the last
matching record. -/
def tickerLookup (tickers : List BinanceTicker) (sym : String) : Option BinanceTicker :=
  tickers.reverse.find? (fun t => t.symbol == sym)

/-- The 24h base-asset volume used as the sort key (src/lib/api.ts line 65):
parseFloat of the volume field, with the string 0 as fallback for a missing
snapshot or an empty field. -/
def tickerVolume (tickers : List BinanceTicker) (sym : String) : JsNum :=
  jsParseFloat (jsOrZero ((tickerLookup tickers sym).map BinanceTicker.volume))

/-- Binary priority of an instrument (src/lib/api.ts line 67). -/
def pairPriority (pair : BinancePair) : Nat :=
  if pair.baseAsset ∈ MAJOR_TOKENS then 1 else 0

/-- The intermediate record built before sorting (src/lib/api.ts lines 63
to 73). -/
structure ScoredPair where
  pair : BinancePair
  volume : JsNum
  priority : Nat
deriving DecidableEq

/-- Sign of the difference of two JavaScript numbers as consumed by
Array.prototype.sort, which only inspects the sign of the comparator value
and treats a NaN comparator value as zero. -/
def jsSubSign : JsNum → JsNum → Int
  | .nan, _ => 0
  | _, .nan => 0
  | .inf b1, .inf b2 => if b1 = b2 then 0 else if b1 then 1 else -1
  | .inf b, .num _ => if b then 1 else -1
  | .num _, .inf b => if b then -1 else 1
  | .num a, .num b => if a < b then -1 else if b < a then 1 else 0

/-- The sort comparator (src/lib/api.ts lines 74 to 81), reduced to the
sign of its returned number: priority descending first, then volume
descending. -/
def pairCmp (a b : ScoredPair) : Int :=
  if a.priority ≠ b.priority then (b.priority : Int) - (a.priority : Int)
  else jsSubSign b.volume a.volume

/-- The before-or-equal relation induced by the comparator. -/
def pairLe (a b : ScoredPair) : Prop :=
  pairCmp a b ≤ 0

instance : DecidableRel pairLe :=
  fun a b => inferInstanceAs (Decidable (pairCmp a b ≤ 0))

/-- The filter on the instrument catalog (src/lib/api.ts lines 44 to 50). -/
def filterPairs (pairsData : List BinancePair) : List BinancePair :=
  pairsData.filter fun p =>
    p.quoteAsset == "USDT" && p.status == "TRADING" &&
      !(strIncludes p.symbol ("DOWN")) && !(strIncludes p.symbol ("UP"))

/-- The scoring step of the pipeline (src/lib/api.ts lines 63 to 73). -/
def scoreOf (tickers : List BinanceTicker) (pair : BinancePair) : ScoredPair :=
  { pair := pair
    volume := tickerVolume tickers pair.symbol
    priority := pairPriority pair }

/-- Filter, score and sort the catalog (src/lib/api.ts lines 44 to 81). -/
def rankPairs (pairsData : List BinancePair) (tickers : List BinanceTicker) : List ScoredPair :=
  List.insertionSort pairLe ((filterPairs pairsData).map (scoreOf tickers))

/-- The final mapping to a Token (src/lib/api.ts lines 86 to 102); the
ticker lookup is recomputed there exactly as in the source. -/
def mkToken (tickers : List BinanceTicker) (pair : BinancePair) : Token :=
  let ticker := tickerLookup tickers pair.symbol
  { id := pair.symbol
    symbol := pair.baseAsset
    name := pair.baseAsset
    image := "https://cryptologos.cc/logos/" ++ jsToLowerCase pair.baseAsset ++ "-logo.png"
    current_price := jsParseFloat (jsOrZero (ticker.map BinanceTicker.lastPrice))
    market_cap := jsParseFloat (jsOrZero (ticker.map BinanceTicker.quoteVolume))
    market_cap_rank := 0
    price_change_percentage_24h := jsParseFloat (jsOrZero (ticker.map BinanceTicker.priceChangePercent))
    volume_24h := jsParseFloat (jsOrZero (ticker.map BinanceTicker.volume))
    quoteAsset := pair.quoteAsset
    baseAsset := pair.baseAsset }

/-- fetchTopTokens (src/lib/api.ts lines 33 to 107). The two Option inputs
stand for the exchangeInfo and 24hr-ticker responses; none models a network
failure or non-success status, which the source turns into a thrown error
caught by the try/catch that returns the empty array. -/
def fetchTopTokens (limit : Int) (info : Option (List BinancePair))
    (tickers : Option (List BinanceTicker)) : List Token :=
  match info, tickers with
  | some pairsData, some tickerData =>
      (jsSlice0 limit (rankPairs pairsData tickerData)).map
        (fun sp => mkToken tickerData sp.pair)
  | _, _ => []

/-- Priority of an output token, recomputed from its base asset; it agrees
by construction with the priority used by the sort. -/
def tokPriority (t : Token) : Nat :=
  if t.baseAsset ∈ MAJOR_TOKENS then 1 else 0

/-- One connection ever created by initializeWebSocket: its combined-stream
subscription string and whether close has been called on it. -/
structure WsConn where
  streams : String
  closed : Bool
deriving DecidableEq

/-- The module-level WebSocket slot (src/lib/api.ts line 127), together
with the history of every connection created so far; current indexes into
that history. -/
structure WsState where
  current : Option Nat
  conns : List WsConn
deriving DecidableEq

/-- The fresh module state: no connection ever created. -/
def initState : WsState :=
  { current := none, conns := [] }

/-- Mark the connection at an index closed (the effect of calling close on
its WebSocket object); out-of-range indices leave the history unchanged. -/
def closeAt : Nat → List WsConn → List WsConn
  | _, [] => []
  | 0, c :: cs => { c with closed := true } :: cs
  | n + 1, c :: cs => c :: closeAt n cs

/-- The combined-stream subscription string (src/lib/api.ts line 136): each
symbol lower-cased with the ticker channel suffix, joined by a slash. -/
def streamsOf (symbols : List String) : String :=
  String.intercalate ("/") (symbols.map (fun sym => jsToLowerCase sym ++ "@ticker"))

/-- initializeWebSocket (src/lib/api.ts lines 129 to 157): close the
existing connection if any, then create, store and return a new connection
subscribed to the ticker channels of the given symbols. -/
def initializeWebSocket (symbols : List String) (st : WsState) : WsState :=
  let conns1 := match st.current with
    | some i => closeAt i st.conns
    | none => st.conns
  { current := some conns1.length
    conns := conns1 ++ [{ streams := streamsOf symbols, closed := false }] }

/-- closeWebSocket (src/lib/api.ts lines 159 to 164): close the stored
connection and clear the slot; a no-op when the slot is already null. -/
def closeWebSocket (st : WsState) : WsState :=
  match st.current with
  | some i => { current := none, conns := closeAt i st.conns }
  | none => st

/-- At most one live connection: every connection of the history that is
not closed is the one the slot points at. -/
def AtMostOneLive (st : WsState) : Prop :=
  ∀ i : Fin st.conns.length, (st.conns.get i).closed = false → st.current = some i.val

instance (st : WsState) : Decidable (AtMostOneLive st) :=
  inferInstanceAs (Decidable (∀ _ : Fin _, _))

/-- The payload of a parsed inbound stream message: field s is the symbol,
field c the last price, both strings (src/lib/api.ts lines 147 to 148). -/
structure StreamPayload where
  s : String
  c : String
deriving DecidableEq

/-- A parsed inbound stream message; data is absent when the parsed body
has no (truthy) data payload. -/
structure StreamMessage where
  data : Option StreamPayload
deriving DecidableEq

/-- A priceUpdate notification dispatched to the hosting environment. -/
structure PriceUpdate where
  symbol : String
  price : JsNum
deriving DecidableEq

/-- The onmessage handler of initializeWebSocket (src/lib/api.ts lines 140
to 154), modelled in a hosting environment where window is defined: the
list of priceUpdate notifications dispatched for one inbound message. -/
def handleStreamMessage (m : StreamMessage) : List PriceUpdate :=
  match m.data with
  | some d => [{ symbol := d.s, price := jsParseFloat d.c }]
  | none => []

/-- The integer nearest to one hundred times a rational, larger value on
ties: the floor of 100 q + 1/2, computed on the numerator and denominator
so that it evaluates (floor division by the positive denominator). -/
def jsRound2 (q : ℚ) : Int :=
  (200 * q.num + (q.den : Int)).fdiv (2 * (q.den : Int))

/-- Model of Number.prototype.toFixed with two fraction digits on a
nonnegative exact rational: the nearest hundredth, larger value on ties,
printed with exactly two fraction digits. -/
def jsToFixed2Pos (q : ℚ) : String :=
  let n : Nat := (jsRound2 q).toNat
  toString (n / 100) ++ "." ++
    (if n % 100 < 10 then "0" ++ toString (n % 100) else toString (n % 100))

/-- Model of Number.prototype.toFixed with two fraction digits: negative
values print a leading minus sign before the magnitude. -/
def jsToFixed2 (q : ℚ) : String :=
  if q < 0 then "-" ++ jsToFixed2Pos (-q) else jsToFixed2Pos q

/-- formatPercentage (src/lib/api.ts lines 240 to 244): a plus sign exactly
when the argument compares strictly greater than zero. -/
def formatPercentage (percentage : ℚ) : String :=
  if 0 < percentage then "+" ++ jsToFixed2 percentage ++ "%"
  else jsToFixed2 percentage ++ "%"

/-- A scored pair whose sort key is a finite number. -/
def FinVol (sp : ScoredPair) : Prop :=
  sp.volume.isFinite = true

/-- Demonstration catalog: one non-major and one major USDT instrument,
both trading. -/
def demoPairs : List BinancePair :=
  [{ symbol := "AAAUSDT", baseAsset := "AAA", quoteAsset := "USDT", status := "TRADING" },
   { symbol := "BTCUSDT", baseAsset := "BTC", quoteAsset := "USDT", status := "TRADING" }]

/-- Demonstration tickers: the non-major instrument has the larger volume,
so only priority can put the major one first. -/
def demoTickers : List BinanceTicker :=
  [{ symbol := "AAAUSDT", lastPrice := "2", quoteVolume := "20",
     priceChangePercent := "1", volume := "10" },
   { symbol := "BTCUSDT", lastPrice := "3", quoteVolume := "15",
     priceChangePercent := "2", volume := "5" }]

/-- A catalog entry whose ticker carries a non-empty, non-numeric
lastPrice string. -/
def nanPair : BinancePair :=
  { symbol := "AAAUSDT", baseAsset := "AAA", quoteAsset := "USDT", status := "TRADING" }

/-- The ticker with the unparseable lastPrice field. -/
def nanTicker : BinanceTicker :=
  { symbol := "AAAUSDT", lastPrice := "abc", quoteVolume := "1",
    priceChangePercent := "1", volume := "1" }

theorem exists_num_of_finVol {sp : ScoredPair} (h : FinVol sp) :
    ∃ q : ℚ, sp.volume = JsNum.num q := by
  unfold FinVol at h
  cases hv : sp.volume with
  | nan => rw [hv] at h; simp [JsNum.isFinite] at h
  | inf b => rw [hv] at h; simp [JsNum.isFinite] at h
  | num q => exact ⟨q, rfl⟩

theorem jsSubSign_le_zero_iff {qa qb : ℚ} :
    jsSubSign (JsNum.num qb) (JsNum.num qa) ≤ 0 ↔ qb ≤ qa := by
  unfold jsSubSign
  rcases lt_trichotomy qb qa with h | h | h
  · simp [h, le_of_lt h]
  · simp [h, lt_irrefl]
  · simp [not_lt.mpr (le_of_lt h), h, not_le.mpr h]

theorem jsSubSign_neg (x y : JsNum) : jsSubSign x y = -jsSubSign y x := by
  cases x with
  | nan => cases y <;> simp [jsSubSign]
  | inf b =>
      cases y with
      | nan => simp [jsSubSign]
      | inf b2 =>
          cases b <;> cases b2 <;> simp [jsSubSign]
      | num q => cases b <;> simp [jsSubSign]
  | num q =>
      cases y with
      | nan => simp [jsSubSign]
      | inf b2 => cases b2 <;> simp [jsSubSign]
      | num q2 =>
          unfold jsSubSign
          rcases lt_trichotomy q q2 with h | h | h
          · simp [h, not_lt.mpr (le_of_lt h)]
          · simp [h, lt_irrefl]
          · simp [h, not_lt.mpr (le_of_lt h)]

theorem pairLe_total (a b : ScoredPair) : pairLe a b ∨ pairLe b a := by
  unfold pairLe pairCmp
  by_cases h : a.priority = b.priority
  · rw [if_neg (not_not_intro h), if_neg (not_not_intro h.symm)]
    rw [jsSubSign_neg]
    omega
  · have h2 : b.priority ≠ a.priority := fun hh => h hh.symm
    rw [if_pos h, if_pos h2]
    omega

theorem pairLe_iff {a b : ScoredPair} {qa qb : ℚ}
    (ha : a.volume = JsNum.num qa) (hb : b.volume = JsNum.num qb) :
    pairLe a b ↔ (b.priority < a.priority ∨ (a.priority = b.priority ∧ qb ≤ qa)) := by
  unfold pairLe pairCmp
  by_cases h : a.priority = b.priority
  · rw [if_neg (not_not_intro h), hb, ha, jsSubSign_le_zero_iff]
    constructor
    · intro hq
      exact Or.inr ⟨h, hq⟩
    · intro hor
      rcases hor with hlt | ⟨_, hq⟩
      · omega
      · exact hq
  · rw [if_pos h]
    constructor
    · intro hle
      left
      omega
    · intro hor
      rcases hor with hlt | ⟨heq, _⟩
      · omega
      · exact absurd heq h

theorem pairLe_trans_finVol {a b c : ScoredPair}
    (ha : FinVol a) (hb : FinVol b) (hc : FinVol c)
    (hab : pairLe a b) (hbc : pairLe b c) : pairLe a c := by
  obtain ⟨qa, hqa⟩ := exists_num_of_finVol ha
  obtain ⟨qb, hqb⟩ := exists_num_of_finVol hb
  obtain ⟨qc, hqc⟩ := exists_num_of_finVol hc
  rw [pairLe_iff hqa hqb] at hab
  rw [pairLe_iff hqb hqc] at hbc
  rw [pairLe_iff hqa hqc]
  rcases hab with h1 | ⟨h1, h1q⟩
  · rcases hbc with h2 | ⟨h2, _⟩
    · left; omega
    · left; omega
  · rcases hbc with h2 | ⟨h2, h2q⟩
    · left; omega
    · right; exact ⟨by omega, le_trans h2q h1q⟩

theorem sorted_orderedInsert_finVol (x : ScoredPair) (hx : FinVol x) (l : List ScoredPair) :
    (∀ y ∈ l, FinVol y) → l.Sorted pairLe →
    (List.orderedInsert pairLe x l).Sorted pairLe := by
  induction l with
  | nil =>
      intro _ _
      simp [List.orderedInsert, List.Sorted]
  | cons y ys ih =>
      intro hl hs
      rw [List.sorted_cons] at hs
      by_cases hxy : pairLe x y
      · rw [List.orderedInsert, if_pos hxy, List.sorted_cons]
        refine ⟨?_, List.sorted_cons.mpr hs⟩
        intro b hb
        rcases List.mem_cons.mp hb with rfl | hb
        · exact hxy
        · exact pairLe_trans_finVol hx (hl y (List.mem_cons_self y ys))
            (hl b (List.mem_cons_of_mem y hb)) hxy (hs.1 b hb)
      · rw [List.orderedInsert, if_neg hxy, List.sorted_cons]
        refine ⟨?_, ih (fun z hz => hl z (List.mem_cons_of_mem y hz)) hs.2⟩
        intro b hb
        rcases (List.mem_orderedInsert pairLe).mp hb with hbx | hb
        · rw [hbx]
          exact (pairLe_total x y).resolve_left hxy
        · exact hs.1 b hb

theorem sorted_insertionSort_finVol (l : List ScoredPair) :
    (∀ x ∈ l, FinVol x) →
    (List.insertionSort pairLe l).Sorted pairLe := by
  induction l with
  | nil =>
      intro _
      simp [List.insertionSort, List.Sorted]
  | cons a as ih =>
      intro hl
      show (List.orderedInsert pairLe a (List.insertionSort pairLe as)).Sorted pairLe
      refine sorted_orderedInsert_finVol a (hl a (List.mem_cons_self a as)) _ ?_
        (ih (fun z hz => hl z (List.mem_cons_of_mem a hz)))
      intro y hy
      exact hl y (List.mem_cons_of_mem a ((List.mem_insertionSort pairLe).mp hy))

theorem tickerLookup_mem {tickers : List BinanceTicker} {sym : String}
    {tk : BinanceTicker} (h : tickerLookup tickers sym = some tk) : tk ∈ tickers := by
  unfold tickerLookup at h
  exact List.mem_reverse.mp (List.mem_of_find?_eq_some h)

theorem finVol_scoreOf {tickers : List BinanceTicker}
    (hfin : ∀ tk ∈ tickers, (jsParseFloat (jsOrZero (some tk.volume))).isFinite = true)
    (pair : BinancePair) : FinVol (scoreOf tickers pair) := by
  unfold FinVol scoreOf tickerVolume
  cases h : tickerLookup tickers pair.symbol with
  | none => simp only [h, Option.map_none]; decide
  | some tk =>
      simp only [h, Option.map_some]
      exact hfin tk (tickerLookup_mem h)

theorem mem_fetchTopTokens {limit : Int} {pairsData : List BinancePair}
    {tickerData : List BinanceTicker} {t : Token}
    (ht : t ∈ fetchTopTokens limit (some pairsData) (some tickerData)) :
    ∃ pair ∈ filterPairs pairsData, t = mkToken tickerData pair := by
  unfold fetchTopTokens at ht
  obtain ⟨sp, hsp, hmk⟩ := List.mem_map.mp ht
  have hsp2 : sp ∈ rankPairs pairsData tickerData := by
    unfold jsSlice0 at hsp
    exact (List.take_sublist _ _).subset hsp
  have hsp3 : sp ∈ (filterPairs pairsData).map (scoreOf tickerData) := by
    unfold rankPairs at hsp2
    exact (List.mem_insertionSort pairLe).mp hsp2
  obtain ⟨pair, hpair, hsc⟩ := List.mem_map.mp hsp3
  refine ⟨pair, hpair, ?_⟩
  rw [← hmk, ← hsc]
  rfl

theorem jsSlice0_sublist {α : Type} (limit : Int) (l : List α) :
    (jsSlice0 limit l).Sublist l :=
  List.take_sublist _ _

theorem length_jsSlice0_le {α : Type} (limit : Int) (h : 0 ≤ limit) (l : List α) :
    ((jsSlice0 limit l).length : Int) ≤ limit := by
  unfold jsSlice0
  rw [if_neg (not_lt.mpr h)]
  have h1 : (List.take limit.toNat l).length ≤ limit.toNat := by
    rw [List.length_take]
    exact min_le_left _ _
  calc ((List.take limit.toNat l).length : Int) ≤ (limit.toNat : Int) := by exact_mod_cast h1
    _ = limit := Int.toNat_of_nonneg h

/-- C2: if either the exchange-info request or the 24h-ticker request
fails (transport error or non-success status, modelled by a none
response), fetchTopTokens returns the empty sequence; the error is caught
inside the function and never propagated, and no partial result exists. -/
theorem fetchTopTokens_empty_on_failure (limit : Int)
    (info : Option (List BinancePair)) (tickers : Option (List BinanceTicker))
    (h : info = none ∨ tickers = none) :
    fetchTopTokens limit info tickers = [] := by
  rcases h with h | h
  · subst h
    cases tickers <;> rfl
  · subst h
    cases info <;> rfl

theorem fetchTopTokens_empty_on_failure_witness :
    ((none : Option (List BinancePair)) = none ∨
      (some demoTickers : Option (List BinanceTicker)) = none) ∧
    fetchTopTokens 300 none (some demoTickers) = [] :=
  ⟨Or.inl rfl, fetchTopTokens_empty_on_failure 300 none (some demoTickers) (Or.inl rfl)⟩

/-- C5 counterexample: at the integer limit -1 the claim fails, because a
negative slice end counts from the end of the array instead of bounding
the length; here the result has length 1, which does not satisfy
length less than or equal to -1. -/
theorem fetchTopTokens_neg_limit_counterexample :
    ¬ (((fetchTopTokens (-1) (some demoPairs) (some demoTickers)).length : Int) ≤ -1) := by
  decide

/-- C5 amended: for every nonnegative integer limit and every pair of
exchange responses, the length of the sequence returned by fetchTopTokens
is at most limit. -/
theorem fetchTopTokens_length_le_limit (limit : Int)
    (info : Option (List BinancePair)) (tickers : Option (List BinanceTicker))
    (h : 0 ≤ limit) :
    ((fetchTopTokens limit info tickers).length : Int) ≤ limit := by
  cases info with
  | none => cases tickers <;> simpa using h
  | some pairsData =>
      cases tickers with
      | none => simpa using h
      | some tickerData =>
          show (((jsSlice0 limit (rankPairs pairsData tickerData)).map
            (fun sp => mkToken tickerData sp.pair)).length : Int) ≤ limit
          rw [List.length_map]
          exact length_jsSlice0_le limit h _

theorem fetchTopTokens_length_le_limit_witness :
    (0 : Int) ≤ 300 ∧
    ((fetchTopTokens 300 (some demoPairs) (some demoTickers)).length : Int) ≤ 300 :=
  ⟨by decide, fetchTopTokens_length_le_limit 300 (some demoPairs) (some demoTickers) (by decide)⟩

/-- C6: every element of the sequence returned by fetchTopTokens comes
from a catalog instrument whose quote asset is USDT, whose status is
TRADING, and whose symbol contains neither DOWN nor UP. -/
theorem fetchTopTokens_filter_sound (limit : Int) (pairsData : List BinancePair)
    (tickerData : List BinanceTicker) (t : Token)
    (ht : t ∈ fetchTopTokens limit (some pairsData) (some tickerData)) :
    t.quoteAsset = "USDT" ∧
    strIncludes t.id ("DOWN") = false ∧
    strIncludes t.id ("UP") = false ∧
    ∃ p ∈ pairsData, p.symbol = t.id ∧ p.status = "TRADING" := by
  obtain ⟨pair, hpair, rfl⟩ := mem_fetchTopTokens ht
  unfold filterPairs at hpair
  obtain ⟨hp, hcond⟩ := List.mem_filter.mp hpair
  simp only [Bool.and_eq_true, beq_iff_eq, Bool.not_eq_true'] at hcond
  obtain ⟨⟨⟨hq, hs⟩, hdown⟩, hup⟩ := hcond
  refine ⟨hq, hdown, hup, pair, hp, rfl, hs⟩

theorem fetchTopTokens_filter_sound_witness :
    ((fetchTopTokens 300 (some demoPairs) (some demoTickers)).get
        ⟨0, by decide⟩).quoteAsset = "USDT" :=
  (fetchTopTokens_filter_sound 300 demoPairs demoTickers _
    (List.get_mem _ 0 (by decide))).1

/-- C7: when the catalog lists each instrument symbol at most once, the id
fields of the tokens returned by fetchTopTokens are pairwise distinct. -/
theorem fetchTopTokens_ids_nodup (limit : Int) (pairsData : List BinancePair)
    (tickerData : List BinanceTicker)
    (hnd : (pairsData.map BinancePair.symbol).Nodup) :
    ((fetchTopTokens limit (some pairsData) (some tickerData)).map Token.id).Nodup := by
  have hmap : (fetchTopTokens limit (some pairsData) (some tickerData)).map Token.id
      = (jsSlice0 limit (rankPairs pairsData tickerData)).map (fun sp => sp.pair.symbol) := by
    show ((jsSlice0 limit (rankPairs pairsData tickerData)).map
      (fun sp => mkToken tickerData sp.pair)).map Token.id = _
    rw [List.map_map]
    rfl
  rw [hmap]
  have h1 : ((filterPairs pairsData).map BinancePair.symbol).Nodup :=
    List.Nodup.sublist (List.Sublist.map BinancePair.symbol (List.filter_sublist pairsData)) hnd
  have h2 : (((filterPairs pairsData).map (scoreOf tickerData)).map
      (fun sp => sp.pair.symbol)) = (filterPairs pairsData).map BinancePair.symbol := by
    rw [List.map_map]
    rfl
  have h3 : ((rankPairs pairsData tickerData).map (fun sp => sp.pair.symbol)).Nodup := by
    have hperm : (rankPairs pairsData tickerData).Perm
        ((filterPairs pairsData).map (scoreOf tickerData)) :=
      List.perm_insertionSort pairLe _
    rw [(hperm.map (fun sp => sp.pair.symbol)).nodup_iff, h2]
    exact h1
  exact List.Nodup.sublist
    (List.Sublist.map _ (jsSlice0_sublist limit (rankPairs pairsData tickerData))) h3

theorem fetchTopTokens_ids_nodup_witness :
    (demoPairs.map BinancePair.symbol).Nodup ∧
    ((fetchTopTokens 300 (some demoPairs) (some demoTickers)).map Token.id).Nodup :=
  ⟨by decide, fetchTopTokens_ids_nodup 300 demoPairs demoTickers (by decide)⟩

/-- C1 counterexample: a ticker whose lastPrice field is the non-empty,
non-numeric string abc yields NaN in the current price of the returned
token, not 0: the fallback only replaces a missing or empty string, so a
parse failure does propagate into the result. -/
theorem fetchTopTokens_nan_counterexample :
    (fetchTopTokens 300 (some [nanPair]) (some [nanTicker])).map Token.current_price
      = [JsNum.nan] ∧ JsNum.nan ≠ JsNum.num 0 := by
  decide

/-- C1 amended: a numeric field of a RankedToken defaults to 0 exactly
when the string-encoded source field is absent (no snapshot for the
symbol) or the empty string; a non-empty string that fails to parse
instead produces NaN. -/
theorem fetchTopTokens_default_zero_on_missing_or_empty (limit : Int)
    (pairsData : List BinancePair) (tickerData : List BinanceTicker) (t : Token)
    (ht : t ∈ fetchTopTokens limit (some pairsData) (some tickerData)) :
    (tickerLookup tickerData t.id = none →
      t.current_price = JsNum.num 0 ∧ t.market_cap = JsNum.num 0 ∧
      t.price_change_percentage_24h = JsNum.num 0 ∧ t.volume_24h = JsNum.num 0) ∧
    (∀ tk, tickerLookup tickerData t.id = some tk →
      (tk.lastPrice = "" → t.current_price = JsNum.num 0) ∧
      (tk.quoteVolume = "" → t.market_cap = JsNum.num 0) ∧
      (tk.priceChangePercent = "" → t.price_change_percentage_24h = JsNum.num 0) ∧
      (tk.volume = "" → t.volume_24h = JsNum.num 0)) := by
  obtain ⟨pair, _, rfl⟩ := mem_fetchTopTokens ht
  constructor
  · intro hnone
    have hnone2 : tickerLookup tickerData pair.symbol = none := hnone
    refine ⟨?_, ?_, ?_, ?_⟩
    · show jsParseFloat (jsOrZero ((tickerLookup tickerData pair.symbol).map
        BinanceTicker.lastPrice)) = JsNum.num 0
      rw [hnone2]
      decide
    · show jsParseFloat (jsOrZero ((tickerLookup tickerData pair.symbol).map
        BinanceTicker.quoteVolume)) = JsNum.num 0
      rw [hnone2]
      decide
    · show jsParseFloat (jsOrZero ((tickerLookup tickerData pair.symbol).map
        BinanceTicker.priceChangePercent)) = JsNum.num 0
      rw [hnone2]
      decide
    · show jsParseFloat (jsOrZero ((tickerLookup tickerData pair.symbol).map
        BinanceTicker.volume)) = JsNum.num 0
      rw [hnone2]
      decide
  · intro tk htk
    have htk2 : tickerLookup tickerData pair.symbol = some tk := htk
    refine ⟨?_, ?_, ?_, ?_⟩
    · intro he
      show jsParseFloat (jsOrZero ((tickerLookup tickerData pair.symbol).map
        BinanceTicker.lastPrice)) = JsNum.num 0
      rw [htk2, Option.map_some', he]
      decide
    · intro he
      show jsParseFloat (jsOrZero ((tickerLookup tickerData pair.symbol).map
        BinanceTicker.quoteVolume)) = JsNum.num 0
      rw [htk2, Option.map_some', he]
      decide
    · intro he
      show jsParseFloat (jsOrZero ((tickerLookup tickerData pair.symbol).map
        BinanceTicker.priceChangePercent)) = JsNum.num 0
      rw [htk2, Option.map_some', he]
      decide
    · intro he
      show jsParseFloat (jsOrZero ((tickerLookup tickerData pair.symbol).map
        BinanceTicker.volume)) = JsNum.num 0
      rw [htk2, Option.map_some', he]
      decide

theorem fetchTopTokens_default_zero_witness :
    (mkToken [] nanPair).current_price = JsNum.num 0 ∧
    (mkToken [] nanPair).volume_24h = JsNum.num 0 := by
  have h := fetchTopTokens_default_zero_on_missing_or_empty 300 [nanPair] []
    (mkToken [] nanPair) (by decide)
  have h0 := h.1 (by decide)
  exact ⟨h0.1, h0.2.2.2⟩

/-- C8: an inbound stream message whose parsed body contains a data
payload produces exactly one priceUpdate notification carrying the symbol
and the parsed last price; a message without a payload produces none; in
particular the BTCUSDT example produces exactly one update at 65000.12. -/
theorem handleStreamMessage_one_update :
    (∀ (m : StreamMessage) (d : StreamPayload), m.data = some d →
      handleStreamMessage m = [{ symbol := d.s, price := jsParseFloat d.c }]) ∧
    (∀ m : StreamMessage, m.data = none → handleStreamMessage m = []) ∧
    handleStreamMessage { data := some { s := "BTCUSDT", c := "65000.12" } } =
      [{ symbol := "BTCUSDT", price := JsNum.num (mkRat 6500012 100) }] := by
  refine ⟨?_, ?_, by decide⟩
  · intro m d h
    unfold handleStreamMessage
    rw [h]
  · intro m h
    unfold handleStreamMessage
    rw [h]

theorem handleStreamMessage_one_update_witness :
    handleStreamMessage { data := some { s := "BTCUSDT", c := "65000.12" } } =
      [{ symbol := "BTCUSDT", price := jsParseFloat ("65000.12") }] :=
  handleStreamMessage_one_update.1 _ _ rfl

/-- C10: formatPercentage prefixes a plus sign exactly for strictly
positive inputs; at 0 it returns 0.00% with no sign, the same shape as a
negative input. -/
theorem formatPercentage_plus_iff_positive :
    formatPercentage 0 = "0.00%" ∧
    formatPercentage 0 ≠ "+0.00%" ∧
    (∀ q : ℚ, 0 < q → formatPercentage q = "+" ++ jsToFixed2 q ++ "%") ∧
    (∀ q : ℚ, q ≤ 0 → formatPercentage q = jsToFixed2 q ++ "%") ∧
    formatPercentage (mkRat (-6) 5) = "-1.20%" := by
  refine ⟨by decide, by decide, ?_, ?_, by decide⟩
  · intro q h
    unfold formatPercentage
    rw [if_pos h]
  · intro q h
    unfold formatPercentage
    rw [if_neg (not_lt.mpr h)]

theorem formatPercentage_plus_iff_positive_witness :
    formatPercentage (mkRat 157 50) = "+" ++ jsToFixed2 (mkRat 157 50) ++ "%" :=
  formatPercentage_plus_iff_positive.2.2.1 (mkRat 157 50) (by decide)

/-- C3: in the output of fetchTopTokens, priority never increases along
the sequence (so every major-asset token precedes every non-major token),
and among tokens of equal priority the 24h base-asset volume is
non-increasing; stated under the hypothesis that every ticker volume
field parses to a finite number, since a NaN sort key makes the
JavaScript comparator inconsistent and voids the sort contract. -/
theorem fetchTopTokens_priority_then_volume (limit : Int)
    (pairsData : List BinancePair) (tickerData : List BinanceTicker)
    (hfin : ∀ tk ∈ tickerData, (jsParseFloat (jsOrZero (some tk.volume))).isFinite = true) :
    ∀ out, out = fetchTopTokens limit (some pairsData) (some tickerData) →
      ∀ (i j : Nat) (hi : i < out.length) (hj : j < out.length), i < j →
        tokPriority (out.get ⟨j, hj⟩) ≤ tokPriority (out.get ⟨i, hi⟩) ∧
        (tokPriority (out.get ⟨i, hi⟩) = tokPriority (out.get ⟨j, hj⟩) →
          jsNumLe (out.get ⟨j, hj⟩).volume_24h (out.get ⟨i, hi⟩).volume_24h) := by
  intro out hout
  subst hout
  intro i j hi hj hij
  have hfins : ∀ sp ∈ (filterPairs pairsData).map (scoreOf tickerData), FinVol sp := by
    intro sp hsp
    obtain ⟨pair, _, hpe⟩ := List.mem_map.mp hsp
    rw [← hpe]
    exact finVol_scoreOf hfin pair
  have hsorted : (rankPairs pairsData tickerData).Sorted pairLe :=
    sorted_insertionSort_finVol _ hfins
  have hpw : (jsSlice0 limit (rankPairs pairsData tickerData)).Pairwise pairLe :=
    List.Pairwise.sublist (jsSlice0_sublist _ _) hsorted
  have hsliced : ∀ sp ∈ jsSlice0 limit (rankPairs pairsData tickerData),
      sp ∈ (filterPairs pairsData).map (scoreOf tickerData) := by
    intro sp hsp
    exact (List.mem_insertionSort pairLe).mp ((jsSlice0_sublist _ _).subset hsp)
  have hshape : ∀ sp ∈ jsSlice0 limit (rankPairs pairsData tickerData),
      ∃ pair, sp = scoreOf tickerData pair := by
    intro sp hsp
    obtain ⟨pair, _, hpe⟩ := List.mem_map.mp (hsliced sp hsp)
    exact ⟨pair, hpe.symm⟩
  have hlen : (fetchTopTokens limit (some pairsData) (some tickerData)).length
      = (jsSlice0 limit (rankPairs pairsData tickerData)).length :=
    List.length_map _ _
  have hi2 : i < (jsSlice0 limit (rankPairs pairsData tickerData)).length := hlen ▸ hi
  have hj2 : j < (jsSlice0 limit (rankPairs pairsData tickerData)).length := hlen ▸ hj
  have hget : ∀ (k : Nat)
      (hk : k < (fetchTopTokens limit (some pairsData) (some tickerData)).length)
      (hk2 : k < (jsSlice0 limit (rankPairs pairsData tickerData)).length),
      (fetchTopTokens limit (some pairsData) (some tickerData)).get ⟨k, hk⟩
        = mkToken tickerData
            (((jsSlice0 limit (rankPairs pairsData tickerData)).get ⟨k, hk2⟩).pair) := by
    intro k hk hk2
    show (List.map (fun sp : ScoredPair => mkToken tickerData sp.pair)
      (jsSlice0 limit (rankPairs pairsData tickerData))).get ⟨k, hk⟩ = _
    rw [List.get_map]
  have hpair := List.pairwise_iff_get.mp hpw ⟨i, hi2⟩ ⟨j, hj2⟩ hij
  obtain ⟨pa, hpa⟩ := hshape _ (List.get_mem _ i hi2)
  obtain ⟨pb, hpb⟩ := hshape _ (List.get_mem _ j hj2)
  have hfa : FinVol ((jsSlice0 limit (rankPairs pairsData tickerData)).get ⟨i, hi2⟩) :=
    hfins _ (hsliced _ (List.get_mem _ i hi2))
  have hfb : FinVol ((jsSlice0 limit (rankPairs pairsData tickerData)).get ⟨j, hj2⟩) :=
    hfins _ (hsliced _ (List.get_mem _ j hj2))
  obtain ⟨qa, hqa⟩ := exists_num_of_finVol hfa
  obtain ⟨qb, hqb⟩ := exists_num_of_finVol hfb
  rw [hpa] at hqa hpair
  rw [hpb] at hqb hpair
  have hdec := (pairLe_iff hqa hqb).mp hpair
  rw [hget i hi hi2, hget j hj hj2, hpa, hpb]
  constructor
  · show (scoreOf tickerData pb).priority ≤ (scoreOf tickerData pa).priority
    rcases hdec with h1 | ⟨h1, _⟩
    · omega
    · omega
  · intro heq
    have heq2 : (scoreOf tickerData pa).priority = (scoreOf tickerData pb).priority := heq
    rcases hdec with h1 | ⟨_, h2⟩
    · omega
    · show jsNumLe (scoreOf tickerData pb).volume (scoreOf tickerData pa).volume
      rw [hqa, hqb]
      exact h2

theorem fetchTopTokens_priority_then_volume_witness :
    tokPriority ((fetchTopTokens 300 (some demoPairs) (some demoTickers)).get ⟨1, by decide⟩)
      ≤ tokPriority ((fetchTopTokens 300 (some demoPairs) (some demoTickers)).get ⟨0, by decide⟩) := by
  have h := fetchTopTokens_priority_then_volume 300 demoPairs demoTickers (by decide)
    (fetchTopTokens 300 (some demoPairs) (some demoTickers)) rfl 0 1
    (by decide) (by decide) (by decide)
  exact h.1

theorem closeAt_length (i : Nat) (l : List WsConn) : (closeAt i l).length = l.length := by
  induction l generalizing i with
  | nil => cases i <;> rfl
  | cons c cs ih =>
      cases i with
      | zero => rfl
      | succ n =>
          show (c :: closeAt n cs).length = (c :: cs).length
          simp [ih]

theorem closeAt_getElem? (i j : Nat) (l : List WsConn) :
    (closeAt i l)[j]? =
      if i = j then (l[j]?).map (fun c => { c with closed := true }) else l[j]? := by
  induction l generalizing i j with
  | nil => cases i <;> simp [closeAt]
  | cons c cs ih =>
      cases i with
      | zero =>
          cases j with
          | zero => simp [closeAt]
          | succ m => simp [closeAt]
      | succ n =>
          cases j with
          | zero => simp [closeAt]
          | succ m =>
              show (c :: closeAt n cs)[m + 1]? = _
              rw [List.getElem?_cons_succ, ih n m, List.getElem?_cons_succ]
              by_cases h : n = m
              · rw [if_pos h, if_pos (by omega)]
              · rw [if_neg h, if_neg (by omega)]

theorem atMostOneLive_iff (st : WsState) :
    AtMostOneLive st ↔
      ∀ (j : Nat) (c : WsConn), st.conns[j]? = some c → c.closed = false →
        st.current = some j := by
  constructor
  · intro h j c hjc hc
    obtain ⟨hlt, hje⟩ := List.getElem?_eq_some.mp hjc
    have := h ⟨j, hlt⟩
    rw [List.get_eq_getElem] at this
    exact this (by rw [hje]; exact hc)
  · intro h j hlive
    refine h j.val (st.conns.get j) ?_ hlive
    rw [List.get_eq_getElem]
    exact List.getElem?_eq_getElem j.isLt

/-- C4: initializeWebSocket closes the previously stored connection, if
any, before creating and storing the new one, so at most one live stream
connection exists afterwards, and the new connection subscribes exactly to
the lower-cased per-symbol ticker channels of the new input joined by a
slash. -/
theorem initializeWebSocket_single_live (st : WsState) (symbols : List String)
    (hinv : AtMostOneLive st) :
    (initializeWebSocket symbols st).current = some st.conns.length ∧
    ((initializeWebSocket symbols st).conns)[st.conns.length]? =
      some { streams := streamsOf symbols, closed := false } ∧
    (∀ i, st.current = some i → i < st.conns.length →
      (((initializeWebSocket symbols st).conns)[i]?).map WsConn.closed = some true) ∧
    AtMostOneLive (initializeWebSocket symbols st) := by
  obtain ⟨cur, conns⟩ := st
  cases cur with
  | none =>
      refine ⟨rfl, List.getElem?_concat_length conns _, ?_, ?_⟩
      · intro i h
        exact absurd h (by simp)
      · rw [atMostOneLive_iff] at hinv ⊢
        intro j c hjc hc
        show some conns.length = some j
        rcases lt_trichotomy j conns.length with hlt | heq | hgt
        · rw [show (initializeWebSocket symbols ⟨none, conns⟩).conns
              = conns ++ [{ streams := streamsOf symbols, closed := false }] from rfl,
            List.getElem?_append_left hlt] at hjc
          exact absurd (hinv j c hjc hc) (by simp)
        · rw [heq]
        · have : (initializeWebSocket symbols ⟨none, conns⟩).conns.length ≤ j := by
            show (conns ++ [_]).length ≤ j
            rw [List.length_append]
            simpa using hgt
          rw [List.getElem?_eq_none this] at hjc
          exact absurd hjc (by simp)
  | some i =>
      have hst2 : (initializeWebSocket symbols ⟨some i, conns⟩).conns
          = closeAt i conns ++ [{ streams := streamsOf symbols, closed := false }] := rfl
      have hlen1 : (closeAt i conns).length = conns.length := closeAt_length i conns
      refine ⟨?_, ?_, ?_, ?_⟩
      · show some (closeAt i conns).length = some conns.length
        rw [hlen1]
      · rw [hst2, ← hlen1]
        exact List.getElem?_concat_length _ _
      · intro i' h hlt
        have hii : i = i' := by simpa using h
        subst hii
        rw [hst2, List.getElem?_append_left (by rw [hlen1]; exact hlt),
          closeAt_getElem?, if_pos rfl, List.getElem?_eq_getElem hlt]
        rfl
      · rw [atMostOneLive_iff] at hinv ⊢
        intro j c hjc hc
        show some (closeAt i conns).length = some j
        rw [hlen1]
        rcases lt_trichotomy j conns.length with hlt | heq | hgt
        · rw [hst2, List.getElem?_append_left (by rw [hlen1]; exact hlt),
            closeAt_getElem?] at hjc
          by_cases hij : i = j
          · rw [if_pos hij, List.getElem?_eq_getElem hlt] at hjc
            simp only [Option.map_some', Option.some.injEq] at hjc
            rw [← hjc] at hc
            simp at hc
          · rw [if_neg hij] at hjc
            have := hinv j c hjc hc
            have : i = j := by simpa using this
            exact absurd this hij
        · rw [heq]
        · have hnone : (initializeWebSocket symbols ⟨some i, conns⟩).conns.length ≤ j := by
            rw [hst2, List.length_append, hlen1]
            simpa using hgt
          rw [List.getElem?_eq_none hnone] at hjc
          exact absurd hjc (by simp)

theorem initializeWebSocket_single_live_witness :
    (initializeWebSocket ["SOLUSDT"] (initializeWebSocket ["BTCUSDT", "ETHUSDT"] initState)).current
      = some 1 ∧
    ((initializeWebSocket ["SOLUSDT"]
        (initializeWebSocket ["BTCUSDT", "ETHUSDT"] initState)).conns)[1]? =
      some { streams := "solusdt@ticker", closed := false } ∧
    (((initializeWebSocket ["SOLUSDT"]
        (initializeWebSocket ["BTCUSDT", "ETHUSDT"] initState)).conns)[0]?).map WsConn.closed
      = some true := by
  have h := initializeWebSocket_single_live
    (initializeWebSocket ["BTCUSDT", "ETHUSDT"] initState) ["SOLUSDT"] (by decide)
  exact ⟨h.1, h.2.1, h.2.2.1 0 rfl (by decide)⟩

/-- C9: closeWebSocket clears the stored handle and closes its connection
when one exists, is a no-op when the handle is already cleared, and a
second call in succession changes nothing and fails nothing. -/
theorem closeWebSocket_spec (st : WsState) :
    (closeWebSocket st).current = none ∧
    (st.current = none → closeWebSocket st = st) ∧
    (∀ i, st.current = some i → i < st.conns.length →
      (((closeWebSocket st).conns)[i]?).map WsConn.closed = some true) ∧
    closeWebSocket (closeWebSocket st) = closeWebSocket st := by
  obtain ⟨cur, conns⟩ := st
  cases cur with
  | none =>
      refine ⟨rfl, fun _ => rfl, ?_, rfl⟩
      intro i h
      exact absurd h (by simp)
  | some i =>
      refine ⟨rfl, ?_, ?_, rfl⟩
      · intro h
        exact absurd h (by simp)
      · intro i' h hlt
        have hii : i = i' := by simpa using h
        subst hii
        show ((closeAt i conns)[i]?).map WsConn.closed = some true
        rw [closeAt_getElem?, if_pos rfl, List.getElem?_eq_getElem hlt]
        rfl

theorem closeWebSocket_spec_witness :
    (closeWebSocket (initializeWebSocket ["BTCUSDT"] initState)).current = none ∧
    closeWebSocket (closeWebSocket (initializeWebSocket ["BTCUSDT"] initState)) =
      closeWebSocket (initializeWebSocket ["BTCUSDT"] initState) ∧
    (((closeWebSocket (initializeWebSocket ["BTCUSDT"] initState)).conns)[0]?).map WsConn.closed
      = some true := by
  have h := closeWebSocket_spec (initializeWebSocket ["BTCUSDT"] initState)
  exact ⟨h.1, h.2.2.2, h.2.2.1 0 rfl (by decide)⟩

end Xade
